import Mathlib

/-!
Verification of the AlmirSai/service repository: the leveled structured
logger (foundation/logger) and the log-filter CLI (apis/tooling/logfmt).

The Go source is shallowly embedded: pure fragments become Lean functions,
the side effects of the logging pipeline (caller capture, trace-function
calls, hook invocations, sink emissions) become an explicit effect trace,
and the per-line loop body of the filter CLI becomes a function from the
parse result of one line to that line's outcome.
-/

set_option autoImplicit false

/-- A JSON value as produced by Go's `json.Unmarshal` into `map[string]any`
(strings, numbers, booleans, null; nested values do not occur in the
emission format). Numbers are abstracted as integers. -/
inductive JValue where
  | str (s : String)
  | num (n : Int)
  | bool (b : Bool)
  | null
deriving DecidableEq, Repr

/-- A parsed JSON object (Go `map[string]any`), as an association list with
unique keys. Go's map iteration order is unspecified; the list order stands
for one concrete iteration order. -/
abbrev JObject := List (String × JValue)

/-- Go map indexing `m[k]`: the value when the key is present, else the zero
value (`nil`), modelled as `none`. -/
def mapLookup (m : JObject) (k : String) : Option JValue :=
  (m.find? (fun p => p.1 = k)).map (fun p => p.2)

/-- `strings.ToLower` (ASCII, which is all the repository uses). -/
def toLowerStr (s : String) : String :=
  String.mk (s.toList.map Char.toLower)

/-- `fmt.Sprintf("%v", v)` on a value taken from the unmarshalled map. -/
def formatV : JValue → String
  | JValue.str s => s
  | JValue.num n => toString n
  | JValue.bool b => if b then "true" else "false"
  | JValue.null => "<nil>"

/-- `fmt.Sprintf("%s", v)` on `m[k]` (an `any`): a missing key or JSON null
is a nil interface and fmt renders the mismatch marker; non-string values
render Go's `%!s(...)` wrong-verb form. -/
def formatS : Option JValue → String
  | none => "%!s(<nil>)"
  | some (JValue.str s) => s
  | some (JValue.num n) => "%!s(float64=" ++ toString n ++ ")"
  | some (JValue.bool b) => "%!s(bool=" ++ (if b then "true" else "false") ++ ")"
  | some JValue.null => "%!s(<nil>)"

/-- The default trace ID used when the `trace_id` key is absent. -/
def nilUUID : String := "00000000-0000-0000-0000-000000000000"

/-- The keys excluded from the trailing `key[value]` section of the filter
CLI's output (the `switch k` in `main`). -/
def mainFieldKey (k : String) : Bool :=
  k = "service" || k = "time" || k = "file" || k = "level" ||
    k = "trace_id" || k = "msg"

/-- The formatting body of `main`'s loop: fixed-order head fields, then the
remaining keys as `key[value]: `, with the final `": "` sliced off
(`out[:len(out)-2]`). -/
def formatLine (m : JObject) : String :=
  let traceID :=
    match mapLookup m "trace_id" with
    | some v => formatV v
    | none => nilUUID
  let head :=
    formatS (mapLookup m "service") ++ ": " ++
    formatS (mapLookup m "time") ++ ": " ++
    formatS (mapLookup m "file") ++ ": " ++
    formatS (mapLookup m "level") ++ ": " ++
    traceID ++ ": " ++
    formatS (mapLookup m "msg") ++ ": "
  let out := m.foldl
    (fun b p =>
      if mainFieldKey p.1 then b
      else b ++ p.1 ++ "[" ++ formatV p.2 ++ "]: ")
    head
  out.dropRight 2

/-- Outcome of one iteration of the filter CLI's scanner loop. -/
inductive LineResult where
  | output (line : String)
  | skip
  | crash
deriving DecidableEq, Repr

/-- One iteration of `main`'s loop in apis/tooling/logfmt: `rawLine` is the
scanned text, `parsed` the result of `json.Unmarshal` on it (`none` when the
line is not valid JSON). `crash` is the panic of the unchecked type
assertion `m["service"].(string)` when the filter is active and the field is
absent or not a string. -/
def processLine (serviceFlag : String) (rawLine : String)
    (parsed : Option JObject) : LineResult :=
  let service := toLowerStr serviceFlag
  match parsed with
  | none =>
    if service = "" then LineResult.output rawLine else LineResult.skip
  | some m =>
    if service = "" then LineResult.output (formatLine m)
    else
      match mapLookup m "service" with
      | some (JValue.str sv) =>
        if toLowerStr sv = service then LineResult.output (formatLine m)
        else LineResult.skip
      | _ => LineResult.crash

lemma toLowerStr_eq_empty_iff (s : String) : toLowerStr s = "" ↔ s = "" := by
  cases s with
  | mk data =>
    have hempty : ("" : String) = ⟨[]⟩ := rfl
    constructor
    · intro h
      have h2 : data.map Char.toLower = [] := by
        have h3 := congrArg String.data h
        simpa [toLowerStr, hempty] using h3
      have h4 : data = [] := List.map_eq_nil_iff.mp h2
      rw [h4, hempty]
    · intro h
      rw [h]
      rfl

/-- C6: with no -service flag, the line
{"service":"SALES","time":"t1","file":"f.go:10","level":"INFO","trace_id":"abc","msg":"hello","extra":"x"}
formats to exactly `SALES: t1: f.go:10: INFO: abc: hello: extra[x]`, and the
same object without `trace_id` formats with the nil UUID in that slot. -/
theorem filter_cli_round_trip :
    processLine "" "ignored"
      (some [("service", JValue.str "SALES"), ("time", JValue.str "t1"),
             ("file", JValue.str "f.go:10"), ("level", JValue.str "INFO"),
             ("trace_id", JValue.str "abc"), ("msg", JValue.str "hello"),
             ("extra", JValue.str "x")]) =
      LineResult.output "SALES: t1: f.go:10: INFO: abc: hello: extra[x]" ∧
    processLine "" "ignored"
      (some [("service", JValue.str "SALES"), ("time", JValue.str "t1"),
             ("file", JValue.str "f.go:10"), ("level", JValue.str "INFO"),
             ("msg", JValue.str "hello"), ("extra", JValue.str "x")]) =
      LineResult.output
        "SALES: t1: f.go:10: INFO: 00000000-0000-0000-0000-000000000000: hello: extra[x]" := by
  constructor <;> rfl

/-- C7: a line that does not parse as JSON is echoed verbatim when no
-service filter is active, produces no output when a filter is active, and
never crashes the program. -/
theorem filter_cli_malformed_line (s flt : String) :
    processLine "" s none = LineResult.output s ∧
    (flt ≠ "" → processLine flt s none = LineResult.skip) ∧
    processLine flt s none ≠ LineResult.crash := by
  refine ⟨rfl, ?_, ?_⟩
  · intro h
    have h2 : toLowerStr flt ≠ "" := fun h3 => h ((toLowerStr_eq_empty_iff flt).mp h3)
    simp [processLine, h2]
  · by_cases h : toLowerStr flt = "" <;> simp [processLine, h]

/-- Witness for C7 at concrete inputs. -/
theorem filter_cli_malformed_line_witness :
    processLine "" "not json" none = LineResult.output "not json" ∧
    processLine "sales" "not json" none = LineResult.skip ∧
    processLine "sales" "not json" none ≠ LineResult.crash :=
  ⟨(filter_cli_malformed_line "not json" "sales").1,
   (filter_cli_malformed_line "not json" "sales").2.1 (by decide),
   (filter_cli_malformed_line "not json" "sales").2.2⟩

/-- C9: with an active -service filter, a JSON line whose `service` field is
absent or not a string makes the unchecked type assertion
`m["service"].(string)` panic, terminating the program. -/
theorem filter_cli_assert_crash (flt s : String) (m : JObject)
    (hflt : toLowerStr flt ≠ "")
    (hsvc : ∀ sv : String, mapLookup m "service" ≠ some (JValue.str sv)) :
    processLine flt s (some m) = LineResult.crash := by
  unfold processLine
  simp only [hflt, if_false]

/-- Witness for C9: filter `sales`, object `{"msg":"hi"}` (no service key). -/
theorem filter_cli_assert_crash_witness :
    processLine "sales" "x" (some [("msg", JValue.str "hi")]) =
      LineResult.crash :=
  filter_cli_assert_crash "sales" "x" [("msg", JValue.str "hi")]
    (by decide) (by intro sv h; simp [mapLookup] at h)

/-!
The logger core (foundation/logger). `slog.Level` is an integer;
`Level slog.Level` in model.go keeps that representation, so `Level` is an
integer with the four named constants at slog's values. `context.Context`
values are abstracted as opaque tokens.
-/

abbrev Level := Int

def LevelDebug : Level := -4

def LevelInfo : Level := 0

def LevelWarn : Level := 4

def LevelError : Level := 8

abbrev Ctx := Nat

/-- A dynamically typed attribute value (`slog.Value` / `any`).
`source` is the `*slog.Source` struct (file path and line) that the
JSON handler attaches for the caller location. -/
inductive Value where
  | str (s : String)
  | num (n : Int)
  | source (file : String) (line : Nat)
deriving DecidableEq, Repr

/-- One `slog.Attr` key/value pair. -/
structure Attr where
  key : String
  value : Value
deriving DecidableEq, Repr

/-- A `slog.Record` as built by `Logger.write`: wall-clock time, level,
message, the caller location resolved from the captured program counter
(`none` when `runtime.Callers` produced no frame), and the attribute list
added with `r.Add`. -/
structure SlogRecord where
  time : Nat
  level : Level
  message : String
  source : Option (String × Nat)
  attrs : List Attr
deriving DecidableEq, Repr

/-- `logger.Record` (model.go): the normalized event handed to hooks; its
`Attributes` is a Go map, modelled as an association list with unique keys. -/
structure Record where
  time : Nat
  message : String
  level : Level
  attributes : List (String × Value)
deriving DecidableEq, Repr

/-- Go map assignment `attrs[k] = v`: overwrite the existing entry for `k`,
otherwise add one. -/
def recInsert (m : List (String × Value)) (k : String) (v : Value) :
    List (String × Value) :=
  if m.any (fun p => p.1 = k) then
    m.map (fun p => if p.1 = k then (k, v) else p)
  else m ++ [(k, v)]

/-- Go map read `attrs[k]`. -/
def recLookup (m : List (String × Value)) (k : String) : Option Value :=
  (m.find? (fun p => p.1 = k)).map (fun p => p.2)

/-- `toRecord` (model.go): fold every attribute of the slog record into the
map, last write winning on duplicate keys. -/
def toRecord (r : SlogRecord) : Record :=
  { time := r.time
    message := r.message
    level := r.level
    attributes := r.attrs.foldl (fun m a => recInsert m a.key a.value) [] }

/-- `logger.Events`: the per-level hook table. Hook callbacks are opaque
side-effecting closures; they are identified here by tokens, and an
invocation is recorded in the effect trace. `none` is a nil callback. -/
structure Events where
  debug : Option Nat
  info : Option Nat
  warn : Option Nat
  error : Option Nat
deriving DecidableEq, Repr

/-- The destination writer handed to the constructors. `io.Discard` is the
distinguished null sink compared against in `new`. -/
inductive LogWriter where
  | ioDiscard
  | stdout
  | buffer (id : Nat)
deriving DecidableEq, Repr

/-- An observable side effect of one logging call, in order of occurrence:
the `runtime.Callers` caller capture, a call of the trace-ID function, a
hook invocation with the normalized record, and the sink writing the
serialized record to its writer. -/
inductive Effect where
  | callers (skip : Nat)
  | traceCall (ctx : Ctx)
  | hook (id : Nat) (ctx : Ctx) (rec : Record)
  | emit (w : LogWriter) (out : List Attr)
deriving DecidableEq, Repr

def Effect.isHook : Effect → Bool
  | Effect.hook _ _ _ => true
  | _ => false

def Effect.isEmit : Effect → Bool
  | Effect.emit _ _ => true
  | _ => false

/-- `filepath.Base` for slash-separated paths. -/
def filepathBase (path : String) : String :=
  if path = "" then "."
  else
    let stripped := (path.toList.reverse.dropWhile (fun c => c = '/')).reverse
    if stripped = [] then "/"
    else String.mk (stripped.reverse.takeWhile (fun c => c ≠ '/')).reverse

/-- `slog.SourceKey`. -/
def sourceKey : String := "source"

/-- The `ReplaceAttr` closure `f` in `new`: rewrite the built-in source
attribute to key `file` with value `basename:line`; leave everything else
unchanged. -/
def replaceSourceAttr (a : Attr) : Attr :=
  if a.key = sourceKey then
    match a.value with
    | Value.source file line =>
      { key := "file", value := Value.str (filepathBase file ++ ":" ++ toString line) }
    | _ => a
  else a

/-- `slog.Level.String`, used by the JSON handler for the `level` field. -/
def levelString (l : Level) : String :=
  let offset : Int → String := fun n =>
    if n = 0 then "" else if 0 < n then "+" ++ toString n else toString n
  if l < LevelInfo then "DEBUG" ++ offset (l - LevelDebug)
  else if l < LevelWarn then "INFO" ++ offset (l - LevelInfo)
  else if l < LevelError then "WARN" ++ offset (l - LevelWarn)
  else "ERROR" ++ offset (l - LevelError)

/-- slog group qualification of an attribute key by the open groups. -/
def qualifyKey (groups : List String) (k : String) : String :=
  groups.foldr (fun g acc => g ++ "." ++ acc) k

def qualifyAttr (groups : List String) (a : Attr) : Attr :=
  { a with key := qualifyKey groups a.key }

/-- The serialized JSON object the sink writes for one record: the built-in
`time`, `level`, `source` (present because `new` sets `AddSource: true`) and
`msg` fields with the `ReplaceAttr` rewrite applied, then the preformatted
`WithAttrs` attributes, then the record's own attributes. -/
def jsonOutput (pre : List Attr) (groups : List String) (r : SlogRecord) :
    List Attr :=
  let builtins : List Attr :=
    [Attr.mk "time" (Value.num (Int.ofNat r.time)),
     Attr.mk "level" (Value.str (levelString r.level))]
    ++ (match r.source with
        | some (file, line) => [Attr.mk sourceKey (Value.source file line)]
        | none => [])
    ++ [Attr.mk "msg" (Value.str r.message)]
  builtins.map replaceSourceAttr ++ pre
    ++ r.attrs.map (fun a => qualifyAttr groups (replaceSourceAttr a))

/-- The `slog.Handler` values reachable in this repository: the JSON
handler built in `new` (with its writer, minimum level, preformatted
attributes and open groups) and the hook wrapper `logHandler` around an
inner handler. -/
inductive Handler where
  | json (w : LogWriter) (minLevel : Level) (preAttrs : List Attr)
      (groups : List String)
  | hooks (events : Events) (inner : Handler)
deriving DecidableEq, Repr

/-- `Enabled`: the JSON handler compares against its minimum level;
`logHandler.Enabled` delegates to the wrapped handler. -/
def Handler.Enabled : Handler → Ctx → Level → Bool
  | Handler.json _ minLevel _ _, _, l => decide (minLevel ≤ l)
  | Handler.hooks _ inner, ctx, l => inner.Enabled ctx l

/-- `WithAttrs`: the JSON handler preformats and appends the attributes;
`logHandler.WithAttrs` re-scopes the wrapped handler and keeps the same
event table. -/
def Handler.WithAttrs : Handler → List Attr → Handler
  | Handler.json w m pre g, attrs =>
    Handler.json w m (pre ++ attrs.map (fun a => qualifyAttr g (replaceSourceAttr a))) g
  | Handler.hooks ev inner, attrs => Handler.hooks ev (inner.WithAttrs attrs)

/-- `WithGroup`: the JSON handler opens a group; `logHandler.WithGroup`
re-scopes the wrapped handler and keeps the same event table. -/
def Handler.WithGroup : Handler → String → Handler
  | Handler.json w m pre g, name => Handler.json w m pre (g ++ [name])
  | Handler.hooks ev inner, name => Handler.hooks ev (inner.WithGroup name)

/-- The `switch r.Level` in `logHandler.Handle`: invoke the callback
registered for exactly the record's level, if non-nil, with the normalized
record; cases in source order (Debug, Error, Warn, Info). -/
def hookEffects (ev : Events) (ctx : Ctx) (r : SlogRecord) : List Effect :=
  if r.level = LevelDebug then
    match ev.debug with
    | some id => [Effect.hook id ctx (toRecord r)]
    | none => []
  else if r.level = LevelError then
    match ev.error with
    | some id => [Effect.hook id ctx (toRecord r)]
    | none => []
  else if r.level = LevelWarn then
    match ev.warn with
    | some id => [Effect.hook id ctx (toRecord r)]
    | none => []
  else if r.level = LevelInfo then
    match ev.info with
    | some id => [Effect.hook id ctx (toRecord r)]
    | none => []
  else []

/-- `Handle`: the JSON handler serializes and writes the record;
`logHandler.Handle` runs the matching hook, then always passes the record
to the wrapped handler. -/
def Handler.Handle : Handler → Ctx → SlogRecord → List Effect
  | Handler.json w _ pre g, _, r => [Effect.emit w (jsonOutput pre g r)]
  | Handler.hooks ev inner, ctx, r => hookEffects ev ctx r ++ inner.Handle ctx r

/-- `logger.Logger`. -/
structure Logger where
  discard : Bool
  handler : Handler
  traceIDFn : Option (Ctx → String)

/-- `Logger.write`: check `Enabled`, capture the caller's program counter,
build the record at the current time, append `trace_id` when a trace
function is configured, add the arguments, and hand the record to the
handler. `now` is the value of `time.Now()` and `src` the caller location
the captured program counter resolves to. -/
def Logger.write (log : Logger) (ctx : Ctx) (level : Level) (caller : Nat)
    (msg : String) (args : List Attr) (now : Nat)
    (src : Option (String × Nat)) : List Effect :=
  if !log.handler.Enabled ctx level then []
  else
    let traceEffArgs :=
      match log.traceIDFn with
      | some fn =>
        ([Effect.traceCall ctx], args ++ [Attr.mk "trace_id" (Value.str (fn ctx))])
      | none => ([], args)
    let r : SlogRecord :=
      { time := now, level := level, message := msg, source := src,
        attrs := traceEffArgs.2 }
    [Effect.callers caller] ++ traceEffArgs.1 ++ log.handler.Handle ctx r

def Logger.Debug (log : Logger) (ctx : Ctx) (msg : String) (args : List Attr)
    (now : Nat) (src : Option (String × Nat)) : List Effect :=
  if log.discard then [] else log.write ctx LevelDebug 3 msg args now src

def Logger.Debugc (log : Logger) (ctx : Ctx) (caller : Nat) (msg : String)
    (args : List Attr) (now : Nat) (src : Option (String × Nat)) : List Effect :=
  if log.discard then [] else log.write ctx LevelDebug caller msg args now src

def Logger.Info (log : Logger) (ctx : Ctx) (msg : String) (args : List Attr)
    (now : Nat) (src : Option (String × Nat)) : List Effect :=
  if log.discard then [] else log.write ctx LevelInfo 3 msg args now src

def Logger.Infoc (log : Logger) (ctx : Ctx) (caller : Nat) (msg : String)
    (args : List Attr) (now : Nat) (src : Option (String × Nat)) : List Effect :=
  if log.discard then [] else log.write ctx LevelInfo caller msg args now src

def Logger.Warn (log : Logger) (ctx : Ctx) (msg : String) (args : List Attr)
    (now : Nat) (src : Option (String × Nat)) : List Effect :=
  if log.discard then [] else log.write ctx LevelWarn 3 msg args now src

def Logger.Warnc (log : Logger) (ctx : Ctx) (caller : Nat) (msg : String)
    (args : List Attr) (now : Nat) (src : Option (String × Nat)) : List Effect :=
  if log.discard then [] else log.write ctx LevelWarn caller msg args now src

def Logger.Error (log : Logger) (ctx : Ctx) (msg : String) (args : List Attr)
    (now : Nat) (src : Option (String × Nat)) : List Effect :=
  if log.discard then [] else log.write ctx LevelError 3 msg args now src

def Logger.Errorc (log : Logger) (ctx : Ctx) (caller : Nat) (msg : String)
    (args : List Attr) (now : Nat) (src : Option (String × Nat)) : List Effect :=
  if log.discard then [] else log.write ctx LevelError caller msg args now src

/-- The unexported constructor `new`: build the JSON handler, wrap it with
`logHandler` only when at least one event callback is non-nil, attach the
`service` attribute, and set `discard` iff the writer is `io.Discard`. -/
def newLogger (w : LogWriter) (minLevel : Level) (serviceName : String)
    (traceIDFn : Option (Ctx → String)) (events : Events) : Logger :=
  let handler0 := Handler.json w minLevel [] []
  let handler1 :=
    if events.debug.isSome || events.info.isSome || events.warn.isSome ||
        events.error.isSome then
      Handler.hooks events handler0
    else handler0
  let handler2 := handler1.WithAttrs [Attr.mk "service" (Value.str serviceName)]
  { discard := w == LogWriter.ioDiscard, handler := handler2,
    traceIDFn := traceIDFn }

/-- `logger.New`: empty event table. -/
def New (w : LogWriter) (minLevel : Level) (serviceName : String)
    (traceIDFn : Option (Ctx → String)) : Logger :=
  newLogger w minLevel serviceName traceIDFn ⟨none, none, none, none⟩

/-- `logger.NewWithEvents`. -/
def NewWithEvents (w : LogWriter) (minLevel : Level) (serviceName : String)
    (traceIDFn : Option (Ctx → String)) (events : Events) : Logger :=
  newLogger w minLevel serviceName traceIDFn events

/-- `logger.NewWithHandler`: wrap an existing handler; `discard` and the
trace function stay zero-valued. -/
def NewWithHandler (h : Handler) : Logger :=
  { discard := false, handler := h, traceIDFn := none }

/-!
Helper lemmas about the constructed handler chain and the attribute map.
-/

lemma newLogger_handler (w : LogWriter) (min : Level) (svc : String)
    (fn : Option (Ctx → String)) (ev : Events) :
    (newLogger w min svc fn ev).handler =
      (if ev.debug.isSome || ev.info.isSome || ev.warn.isSome ||
          ev.error.isSome then
        Handler.hooks ev
          (Handler.json w min [Attr.mk "service" (Value.str svc)] [])
      else Handler.json w min [Attr.mk "service" (Value.str svc)] []) := by
  by_cases hc : (ev.debug.isSome || ev.info.isSome || ev.warn.isSome ||
      ev.error.isSome) = true
  · simp only [newLogger, hc, if_true]
    rfl
  · have hc' : (ev.debug.isSome || ev.info.isSome || ev.warn.isSome ||
        ev.error.isSome) = false := by simpa using hc
    simp only [newLogger, hc', Bool.false_eq_true, if_false]
    rfl

lemma newLogger_enabled (w : LogWriter) (min : Level) (svc : String)
    (fn : Option (Ctx → String)) (ev : Events) (ctx : Ctx) (l : Level) :
    (newLogger w min svc fn ev).handler.Enabled ctx l = decide (min ≤ l) := by
  rw [newLogger_handler]
  split <;> rfl

lemma newLogger_write_disabled (w : LogWriter) (min : Level) (svc : String)
    (fn : Option (Ctx → String)) (ev : Events) (ctx : Ctx) (l : Level)
    (c : Nat) (msg : String) (args : List Attr) (now : Nat)
    (src : Option (String × Nat)) (h : l < min) :
    (newLogger w min svc fn ev).write ctx l c msg args now src = [] := by
  have he : (newLogger w min svc fn ev).handler.Enabled ctx l = false := by
    rw [newLogger_enabled]
    simpa using not_le.mpr h
  unfold Logger.write
  rw [he]
  rfl

lemma newLogger_write_none (w : LogWriter) (min : Level) (svc : String)
    (ev : Events) (ctx : Ctx) (l : Level) (c : Nat) (msg : String)
    (args : List Attr) (now : Nat) (src : Option (String × Nat))
    (h : min ≤ l) :
    (newLogger w min svc none ev).write ctx l c msg args now src =
      Effect.callers c ::
        (newLogger w min svc none ev).handler.Handle ctx
          { time := now, level := l, message := msg, source := src,
            attrs := args } := by
  have he : (newLogger w min svc none ev).handler.Enabled ctx l = true := by
    rw [newLogger_enabled]
    exact decide_eq_true h
  have ht : (newLogger w min svc none ev).traceIDFn = none := rfl
  unfold Logger.write
  rw [he, ht]
  simp

lemma newLogger_write_some (w : LogWriter) (min : Level) (svc : String)
    (f : Ctx → String) (ev : Events) (ctx : Ctx) (l : Level) (c : Nat)
    (msg : String) (args : List Attr) (now : Nat)
    (src : Option (String × Nat)) (h : min ≤ l) :
    (newLogger w min svc (some f) ev).write ctx l c msg args now src =
      Effect.callers c :: Effect.traceCall ctx ::
        (newLogger w min svc (some f) ev).handler.Handle ctx
          { time := now, level := l, message := msg, source := src,
            attrs := args ++ [Attr.mk "trace_id" (Value.str (f ctx))] } := by
  have he : (newLogger w min svc (some f) ev).handler.Enabled ctx l = true := by
    rw [newLogger_enabled]
    exact decide_eq_true h
  have ht : (newLogger w min svc (some f) ev).traceIDFn = some f := rfl
  unfold Logger.write
  rw [he, ht]
  simp

lemma hookEffects_cases (ev : Events) (ctx : Ctx) (r : SlogRecord) :
    hookEffects ev ctx r = [] ∨
    ∃ id, hookEffects ev ctx r = [Effect.hook id ctx (toRecord r)] ∧
      ((r.level = LevelDebug ∧ ev.debug = some id) ∨
       (r.level = LevelError ∧ ev.error = some id) ∨
       (r.level = LevelWarn ∧ ev.warn = some id) ∨
       (r.level = LevelInfo ∧ ev.info = some id)) := by
  unfold hookEffects
  split_ifs with h1 h2 h3 h4
  · cases ev.debug with
    | none => exact Or.inl rfl
    | some id => exact Or.inr ⟨id, rfl, Or.inl ⟨h1, rfl⟩⟩
  · cases ev.error with
    | none => exact Or.inl rfl
    | some id => exact Or.inr ⟨id, rfl, Or.inr (Or.inl ⟨h2, rfl⟩)⟩
  · cases ev.warn with
    | none => exact Or.inl rfl
    | some id => exact Or.inr ⟨id, rfl, Or.inr (Or.inr (Or.inl ⟨h3, rfl⟩))⟩
  · cases ev.info with
    | none => exact Or.inl rfl
    | some id => exact Or.inr ⟨id, rfl, Or.inr (Or.inr (Or.inr ⟨h4, rfl⟩))⟩
  · exact Or.inl rfl

lemma emit_mem_newLogger_handle (w : LogWriter) (min : Level) (svc : String)
    (fn : Option (Ctx → String)) (ev : Events) (ctx : Ctx) (r : SlogRecord)
    (wr : LogWriter) (out : List Attr) :
    (Effect.emit wr out ∈ (newLogger w min svc fn ev).handler.Handle ctx r) ↔
      (wr = w ∧ out = jsonOutput [Attr.mk "service" (Value.str svc)] [] r) := by
  rw [newLogger_handler]
  split
  · rcases hookEffects_cases ev ctx r with hh | ⟨id, hh, _⟩ <;>
      simp [Handler.Handle, hh]
  · simp [Handler.Handle]

lemma hook_mem_newLogger_handle (w : LogWriter) (min : Level) (svc : String)
    (fn : Option (Ctx → String)) (ev : Events) (ctx : Ctx) (r : SlogRecord)
    (id : Nat) (hctx : Ctx) (rec : Record) :
    Effect.hook id hctx rec ∈ (newLogger w min svc fn ev).handler.Handle ctx r →
      hctx = ctx ∧ rec = toRecord r := by
  rw [newLogger_handler]
  split
  · rcases hookEffects_cases ev ctx r with hh | ⟨id', hh, _⟩ <;>
      simp [Handler.Handle, hh]
  · simp [Handler.Handle]

lemma emit_mem_write_none (w : LogWriter) (min : Level) (svc : String)
    (ev : Events) (ctx : Ctx) (l : Level) (c : Nat) (msg : String)
    (args : List Attr) (now : Nat) (src : Option (String × Nat))
    (wr : LogWriter) (out : List Attr) (h : min ≤ l) :
    (Effect.emit wr out ∈
        (newLogger w min svc none ev).write ctx l c msg args now src) ↔
      (wr = w ∧ out = jsonOutput [Attr.mk "service" (Value.str svc)] []
        { time := now, level := l, message := msg, source := src,
          attrs := args }) := by
  rw [newLogger_write_none w min svc ev ctx l c msg args now src h]
  simp [emit_mem_newLogger_handle]

lemma emit_mem_write_some (w : LogWriter) (min : Level) (svc : String)
    (f : Ctx → String) (ev : Events) (ctx : Ctx) (l : Level) (c : Nat)
    (msg : String) (args : List Attr) (now : Nat)
    (src : Option (String × Nat)) (wr : LogWriter) (out : List Attr)
    (h : min ≤ l) :
    (Effect.emit wr out ∈
        (newLogger w min svc (some f) ev).write ctx l c msg args now src) ↔
      (wr = w ∧ out = jsonOutput [Attr.mk "service" (Value.str svc)] []
        { time := now, level := l, message := msg, source := src,
          attrs := args ++ [Attr.mk "trace_id" (Value.str (f ctx))] }) := by
  rw [newLogger_write_some w min svc f ev ctx l c msg args now src h]
  simp [emit_mem_newLogger_handle]

lemma hook_mem_write (w : LogWriter) (min : Level) (svc : String)
    (fn : Option (Ctx → String)) (ev : Events) (ctx : Ctx) (l : Level)
    (c : Nat) (msg : String) (args : List Attr) (now : Nat)
    (src : Option (String × Nat)) (id : Nat) (hctx : Ctx) (rec : Record) :
    Effect.hook id hctx rec ∈
        (newLogger w min svc fn ev).write ctx l c msg args now src →
      hctx = ctx ∧ rec = toRecord
        { time := now, level := l, message := msg, source := src,
          attrs := args ++ (match fn with
            | some f => [Attr.mk "trace_id" (Value.str (f ctx))]
            | none => []) } := by
  intro hm
  by_cases h : min ≤ l
  · cases fn with
    | none =>
      rw [newLogger_write_none w min svc ev ctx l c msg args now src h] at hm
      simp only [List.mem_cons] at hm
      rcases hm with hm | hm
      · exact absurd hm (by simp)
      · simpa using hook_mem_newLogger_handle w min svc none ev ctx _ id hctx rec hm
    | some f =>
      rw [newLogger_write_some w min svc f ev ctx l c msg args now src h] at hm
      simp only [List.mem_cons] at hm
      rcases hm with hm | hm
      · exact absurd hm (by simp)
      rcases hm with hm | hm
      · exact absurd hm (by simp)
      · exact hook_mem_newLogger_handle w min svc (some f) ev ctx _ id hctx rec hm
  · rw [newLogger_write_disabled w min svc fn ev ctx l c msg args now src
        (not_le.mp h)] at hm
    simp at hm

/-!
Association-list lemmas for the Go map built by `toRecord`.
-/

lemma any_key_map_repl (m : List (String × Value)) (kr k : String) (v : Value) :
    ((m.map (fun p => if p.1 = kr then (kr, v) else p)).any
        (fun p => p.1 = k))
      = m.any (fun p => p.1 = k) := by
  induction m with
  | nil => rfl
  | cons hd tl ih =>
    by_cases hk : hd.1 = kr
    · simp [List.any_cons, hk, ih]
    · simp [List.any_cons, hk, ih]

lemma recInsert_any_key (m : List (String × Value)) (kr k : String)
    (v : Value) :
    ((recInsert m kr v).any (fun p => p.1 = k))
      = (m.any (fun p => p.1 = k) || decide (kr = k)) := by
  unfold recInsert
  split
  · rename_i hin
    rw [any_key_map_repl]
    by_cases hk : kr = k
    · subst hk
      simp [hin]
    · simp [hk]
  · simp [List.any_append]

lemma foldl_recInsert_any_key (attrs : List Attr)
    (m : List (String × Value)) (k : String) :
    ((attrs.foldl (fun acc a => recInsert acc a.key a.value) m).any
        (fun p => p.1 = k))
      = (m.any (fun p => p.1 = k) || attrs.any (fun a => a.key = k)) := by
  induction attrs generalizing m with
  | nil => simp
  | cons a as ih =>
    rw [List.foldl_cons, ih, recInsert_any_key]
    simp [List.any_cons, Bool.or_assoc]

lemma find_map_repl (m : List (String × Value)) (k : String) (v : Value)
    (h : m.any (fun p => p.1 = k) = true) :
    ((m.map (fun p => if p.1 = k then (k, v) else p)).find?
        (fun p => p.1 = k))
      = some (k, v) := by
  induction m with
  | nil => simp at h
  | cons hd tl ih =>
    by_cases hk : hd.1 = k
    · simp [List.find?, hk]
    · have h2 : tl.any (fun p => p.1 = k) = true := by
        simpa [List.any_cons, hk] using h
      simp [List.find?, hk, ih h2]

lemma find_append_single (m : List (String × Value)) (k : String) (v : Value)
    (h : m.any (fun p => p.1 = k) = false) :
    ((m ++ [(k, v)]).find? (fun p => p.1 = k)) = some (k, v) := by
  induction m with
  | nil => simp [List.find?]
  | cons hd tl ih =>
    simp only [List.any_cons, Bool.or_eq_false_iff] at h
    obtain ⟨h1, h2⟩ := h
    have hk : ¬(hd.1 = k) := of_decide_eq_false h1
    simp [List.find?, hk, ih h2]

lemma recLookup_recInsert_self (m : List (String × Value)) (k : String)
    (v : Value) :
    recLookup (recInsert m k v) k = some v := by
  unfold recLookup recInsert
  split
  · rename_i hin
    rw [find_map_repl m k v hin]
    rfl
  · rename_i hin
    have h2 : m.any (fun p => p.1 = k) = false := Bool.eq_false_iff.mpr hin
    rw [find_append_single m k v h2]
    rfl

lemma foldl_recInsert_lookup_last (as : List Attr)
    (m : List (String × Value)) (k : String) (v : Value) :
    recLookup
        ((as ++ [Attr.mk k v]).foldl
          (fun acc a => recInsert acc a.key a.value) m) k
      = some v := by
  rw [List.foldl_append]
  simp only [List.foldl_cons, List.foldl_nil]
  exact recLookup_recInsert_self _ k v

/-!
Lemmas about the serialized output of the JSON sink.
-/

lemma qualifyAttr_nil (a : Attr) : qualifyAttr [] a = a := rfl

lemma replaceSourceAttr_of_key_ne (a : Attr) (hk : ¬(a.key = sourceKey)) :
    replaceSourceAttr a = a := by
  unfold replaceSourceAttr
  simp [hk]

lemma replaceSourceAttr_key_eq (a : Attr) (k : String) (hk4 : k ≠ "file")
    (hk5 : k ≠ sourceKey) :
    (decide ((replaceSourceAttr a).key = k)) = decide (a.key = k) := by
  unfold replaceSourceAttr
  split
  · rename_i hsrc
    split
    · simp [hsrc, eq_comm, hk4, hk5]
    · rfl
  · rfl

lemma mem_jsonOutput_of_mem_attrs (pre : List Attr) (g : List String)
    (r : SlogRecord) (a : Attr) (ha : a ∈ r.attrs) (hk : ¬(a.key = sourceKey)) :
    qualifyAttr g a ∈ jsonOutput pre g r := by
  unfold jsonOutput
  have h1 : qualifyAttr g (replaceSourceAttr a) = qualifyAttr g a := by
    rw [replaceSourceAttr_of_key_ne a hk]
  refine List.mem_append.mpr (Or.inr (List.mem_map.mpr ⟨a, ha, h1⟩))

lemma service_mem_jsonOutput (svc : String) (rest : List Attr) (r : SlogRecord) :
    Attr.mk "service" (Value.str svc) ∈
      jsonOutput (Attr.mk "service" (Value.str svc) :: rest) [] r := by
  unfold jsonOutput
  simp

lemma file_mem_jsonOutput (pre : List Attr) (r : SlogRecord) (p : String)
    (n : Nat) (hsrc : r.source = some (p, n)) :
    Attr.mk "file" (Value.str (filepathBase p ++ ":" ++ toString n)) ∈
      jsonOutput pre [] r := by
  unfold jsonOutput
  simp [hsrc, replaceSourceAttr, sourceKey]

lemma jsonOutput_any_key (pre : List Attr) (r : SlogRecord) (k : String)
    (hk1 : k ≠ "time") (hk2 : k ≠ "level") (hk3 : k ≠ "msg")
    (hk4 : k ≠ "file") (hk5 : k ≠ sourceKey) :
    ((jsonOutput pre [] r).any (fun a => a.key = k))
      = (pre.any (fun a => a.key = k) || r.attrs.any (fun a => a.key = k)) := by
  have hfun : ((fun a : Attr => decide (a.key = k)) ∘
      (fun a => qualifyAttr [] (replaceSourceAttr a)))
        = fun a : Attr => decide (a.key = k) := by
    funext a
    simp only [Function.comp, qualifyAttr_nil]
    exact replaceSourceAttr_key_eq a k hk4 hk5
  rcases hs : r.source with _ | ⟨p, n⟩ <;>
    · unfold jsonOutput
      simp only [hs, List.any_append, List.any_map, hfun, List.map_append,
        List.map_cons, List.map_nil, List.any_cons, List.any_nil]
      simp [replaceSourceAttr, sourceKey, Ne.symm hk1, Ne.symm hk2,
        Ne.symm hk3, Ne.symm hk4, Ne.symm hk5]

/-- C1: for a record at or above the configured minimum, the hook pipeline
invokes at most one event hook — the one registered for exactly the
record's level, with the normalized record — and then delegates to the
underlying sink exactly once, unconditionally, as the final step. -/
theorem pipeline_hook_dispatch (ev : Events) (w : LogWriter) (min : Level)
    (pre : List Attr) (g : List String) (ctx : Ctx) (r : SlogRecord)
    (hmin : min ≤ r.level) :
    (((Handler.hooks ev (Handler.json w min pre g)).Handle ctx r).countP
        Effect.isHook ≤ 1) ∧
    (∀ id hctx rec,
      Effect.hook id hctx rec ∈
          (Handler.hooks ev (Handler.json w min pre g)).Handle ctx r →
        hctx = ctx ∧ rec = toRecord r ∧
        ((r.level = LevelDebug ∧ ev.debug = some id) ∨
         (r.level = LevelError ∧ ev.error = some id) ∨
         (r.level = LevelWarn ∧ ev.warn = some id) ∨
         (r.level = LevelInfo ∧ ev.info = some id))) ∧
    (((Handler.hooks ev (Handler.json w min pre g)).Handle ctx r).filter
        Effect.isEmit = [Effect.emit w (jsonOutput pre g r)]) ∧
    (((Handler.hooks ev (Handler.json w min pre g)).Handle ctx r).getLast?
        = some (Effect.emit w (jsonOutput pre g r))) := by
  have he : (Handler.hooks ev (Handler.json w min pre g)).Handle ctx r
      = hookEffects ev ctx r ++ [Effect.emit w (jsonOutput pre g r)] := rfl
  rcases hookEffects_cases ev ctx r with hh | ⟨id0, hh, hl⟩
  · rw [he, hh]
    refine ⟨by simp [Effect.isHook], ?_, by simp [Effect.isEmit], by simp⟩
    intro id hctx rec hm
    simp [Effect.isHook] at hm
  · rw [he, hh]
    refine ⟨by simp [Effect.isHook, List.countP_cons], ?_,
      by simp [List.filter, Effect.isEmit, Effect.isHook], by simp⟩
    intro id hctx rec hm
    simp only [List.cons_append, List.nil_append, List.mem_cons,
      List.mem_singleton] at hm
    rcases hm with hm | hm
    · obtain ⟨h1, h2, h3⟩ := by simpa using hm
      subst h1
      exact ⟨h2, h3, hl⟩
    · exact absurd hm (by simp)

/-- Witness for C1: an Error-level record on a table with only an Error
hook. -/
theorem pipeline_hook_dispatch_witness :
    ((Handler.hooks ⟨none, none, none, some 7⟩
        (Handler.json LogWriter.stdout LevelInfo [] [])).Handle 0
        { time := 1, level := LevelError, message := "boom", source := none,
          attrs := [] }).countP Effect.isHook ≤ 1 :=
  (pipeline_hook_dispatch ⟨none, none, none, some 7⟩ LogWriter.stdout
    LevelInfo [] [] 0
    { time := 1, level := LevelError, message := "boom", source := none,
      attrs := [] } (by decide)).1

/-- C2: for a level strictly below the configured minimum, the write path
and every per-level method (plain and caller-depth variants) produce an
empty effect trace: no caller capture, no trace-function call, no hook, no
emission. -/
theorem below_min_no_effects (w : LogWriter) (min : Level) (svc : String)
    (fn : Option (Ctx → String)) (ev : Events) (ctx : Ctx) (c : Nat)
    (msg : String) (args : List Attr) (now : Nat) (src : Option (String × Nat))
    (l : Level) (h : l < min) :
    (newLogger w min svc fn ev).write ctx l c msg args now src = [] ∧
    (l = LevelDebug →
      (newLogger w min svc fn ev).Debug ctx msg args now src = [] ∧
      (newLogger w min svc fn ev).Debugc ctx c msg args now src = []) ∧
    (l = LevelInfo →
      (newLogger w min svc fn ev).Info ctx msg args now src = [] ∧
      (newLogger w min svc fn ev).Infoc ctx c msg args now src = []) ∧
    (l = LevelWarn →
      (newLogger w min svc fn ev).Warn ctx msg args now src = [] ∧
      (newLogger w min svc fn ev).Warnc ctx c msg args now src = []) ∧
    (l = LevelError →
      (newLogger w min svc fn ev).Error ctx msg args now src = [] ∧
      (newLogger w min svc fn ev).Errorc ctx c msg args now src = []) := by
  refine ⟨newLogger_write_disabled w min svc fn ev ctx l c msg args now src h,
    ?_, ?_, ?_, ?_⟩ <;> intro hl <;> subst hl <;> constructor
  · unfold Logger.Debug
    split
    · rfl
    · exact newLogger_write_disabled w min svc fn ev ctx _ 3 msg args now src h
  · unfold Logger.Debugc
    split
    · rfl
    · exact newLogger_write_disabled w min svc fn ev ctx _ c msg args now src h
  · unfold Logger.Info
    split
    · rfl
    · exact newLogger_write_disabled w min svc fn ev ctx _ 3 msg args now src h
  · unfold Logger.Infoc
    split
    · rfl
    · exact newLogger_write_disabled w min svc fn ev ctx _ c msg args now src h
  · unfold Logger.Warn
    split
    · rfl
    · exact newLogger_write_disabled w min svc fn ev ctx _ 3 msg args now src h
  · unfold Logger.Warnc
    split
    · rfl
    · exact newLogger_write_disabled w min svc fn ev ctx _ c msg args now src h
  · unfold Logger.Error
    split
    · rfl
    · exact newLogger_write_disabled w min svc fn ev ctx _ 3 msg args now src h
  · unfold Logger.Errorc
    split
    · rfl
    · exact newLogger_write_disabled w min svc fn ev ctx _ c msg args now src h

/-- Witness for C2: Info below a Warn minimum produces no effects. -/
theorem below_min_no_effects_witness :
    (newLogger LogWriter.stdout LevelWarn "S" none
        ⟨none, none, none, none⟩).write 0 LevelInfo 3 "m" [] 0 none = [] ∧
    (newLogger LogWriter.stdout LevelWarn "S" none
        ⟨none, none, none, none⟩).Info 0 "m" [] 0 none = [] :=
  have h := below_min_no_effects LogWriter.stdout LevelWarn "S" none
    ⟨none, none, none, none⟩ 0 3 "m" [] 0 none LevelInfo (by decide)
  ⟨h.1, (h.2.2.1 rfl).1⟩

/-- C3: a Logger whose writer is the null sink has `discard = true` and
every per-level method returns immediately with an empty effect trace (no
caller capture, no hook, no emission, no trace-function call); `discard` is
set at construction iff the writer is `io.Discard`. -/
theorem discard_short_circuit (min : Level) (svc : String)
    (fn : Option (Ctx → String)) (ev : Events) (ctx : Ctx) (c : Nat)
    (msg : String) (args : List Attr) (now : Nat)
    (src : Option (String × Nat)) (w : LogWriter) :
    (newLogger LogWriter.ioDiscard min svc fn ev).Debug ctx msg args now src = [] ∧
    (newLogger LogWriter.ioDiscard min svc fn ev).Debugc ctx c msg args now src = [] ∧
    (newLogger LogWriter.ioDiscard min svc fn ev).Info ctx msg args now src = [] ∧
    (newLogger LogWriter.ioDiscard min svc fn ev).Infoc ctx c msg args now src = [] ∧
    (newLogger LogWriter.ioDiscard min svc fn ev).Warn ctx msg args now src = [] ∧
    (newLogger LogWriter.ioDiscard min svc fn ev).Warnc ctx c msg args now src = [] ∧
    (newLogger LogWriter.ioDiscard min svc fn ev).Error ctx msg args now src = [] ∧
    (newLogger LogWriter.ioDiscard min svc fn ev).Errorc ctx c msg args now src = [] ∧
    (newLogger w min svc fn ev).discard = (w == LogWriter.ioDiscard) :=
  ⟨rfl, rfl, rfl, rfl, rfl, rfl, rfl, rfl, rfl⟩

/-- C8: `WithAttrs` and `WithGroup` on the hook wrapper return a pipeline
with the identical event-hook table and only the inner sink re-scoped, so
hook behavior is the same in every scope. -/
theorem rescope_preserves_hook_table (ev : Events) (inner : Handler)
    (attrs : List Attr) (name : String) (ctx : Ctx) (r : SlogRecord) :
    Handler.WithAttrs (Handler.hooks ev inner) attrs =
      Handler.hooks ev (Handler.WithAttrs inner attrs) ∧
    Handler.WithGroup (Handler.hooks ev inner) name =
      Handler.hooks ev (Handler.WithGroup inner name) ∧
    (Handler.WithAttrs (Handler.hooks ev inner) attrs).Handle ctx r =
      hookEffects ev ctx r ++ (Handler.WithAttrs inner attrs).Handle ctx r ∧
    (Handler.WithGroup (Handler.hooks ev inner) name).Handle ctx r =
      hookEffects ev ctx r ++ (Handler.WithGroup inner name).Handle ctx r :=
  ⟨rfl, rfl, rfl, rfl⟩

lemma jsonOutput_no_sourceKey (pre : List Attr) (r : SlogRecord)
    (hpre : pre.any (fun a => a.key = sourceKey) = false)
    (hattrs : r.attrs.any (fun a => a.key = sourceKey) = false) :
    (jsonOutput pre [] r).any (fun a => a.key = sourceKey) = false := by
  have hattrs2 : ((r.attrs.map
      (fun a => qualifyAttr [] (replaceSourceAttr a))).any
        (fun a => a.key = sourceKey)) = false := by
    rw [List.any_map]
    rw [List.any_eq_false] at hattrs ⊢
    intro a ha
    have h1 := hattrs a ha
    have h2 : replaceSourceAttr a = a :=
      replaceSourceAttr_of_key_ne a (by simpa using h1)
    simp only [Function.comp, qualifyAttr_nil, h2]
    exact h1
  rcases hs : r.source with _ | ⟨p, n⟩ <;>
    · unfold jsonOutput
      simp only [hs, List.any_append, List.map_append, List.map_cons,
        List.map_nil, List.any_cons, List.any_nil, hattrs2, hpre]
      simp [replaceSourceAttr, sourceKey]

/-- C10: a record handed to an event hook carries the message, level, time
and the caller-supplied attributes (plus `trace_id` when a trace function is
configured), but never the constant `service` attribute — that tag is
attached to the sink beneath the hook wrapper. -/
theorem hook_record_no_service (w : LogWriter) (min : Level) (svc : String)
    (fn : Option (Ctx → String)) (ev : Events) (ctx : Ctx) (l : Level)
    (c : Nat) (msg : String) (args : List Attr) (now : Nat)
    (src : Option (String × Nat)) (id : Nat) (hctx : Ctx) (rec : Record)
    (hm : Effect.hook id hctx rec ∈
      (newLogger w min svc fn ev).write ctx l c msg args now src) :
    rec.message = msg ∧ rec.level = l ∧ rec.time = now ∧ hctx = ctx ∧
    (args.any (fun a => a.key = "service") = false →
      rec.attributes.any (fun p => p.1 = "service") = false) ∧
    (∀ f, fn = some f →
      recLookup rec.attributes "trace_id" = some (Value.str (f ctx))) ∧
    (∀ a ∈ args, rec.attributes.any (fun p => p.1 = a.key) = true) := by
  obtain ⟨hc, hr⟩ :=
    hook_mem_write w min svc fn ev ctx l c msg args now src id hctx rec hm
  subst hc
  subst hr
  refine ⟨rfl, rfl, rfl, rfl, ?_, ?_, ?_⟩
  · intro hargs
    cases fn with
    | none => simp [toRecord, foldl_recInsert_any_key, hargs]
    | some f =>
      simp only [toRecord]
      rw [foldl_recInsert_any_key]
      simp [List.any_append, hargs]
  · intro f hfn
    subst hfn
    simp only [toRecord]
    exact foldl_recInsert_lookup_last args [] "trace_id" _
  · intro a ha
    simp only [toRecord, foldl_recInsert_any_key, List.any_nil,
      Bool.false_or]
    cases fn <;>
      · rw [List.any_eq_true]
        exact ⟨a, List.mem_append_left _ ha, by simp⟩

/-- Witness for C10: an Info hook fires and its record shows the message. -/
theorem hook_record_no_service_witness :
    (toRecord
        { time := 2, level := LevelInfo, message := "m", source := none,
          attrs := [] } : Record).message = "m" :=
  (hook_record_no_service LogWriter.stdout LevelInfo "SALES" none
    ⟨none, some 5, none, none⟩ 0 LevelInfo 3 "m" [] 2 none 5 0
    (toRecord
      { time := 2, level := LevelInfo, message := "m", source := none,
        attrs := [] }) (by decide)).1

/-- Counterexample for C4 as stated: on a Logger with a nil trace function,
an enabled Info call whose caller-supplied arguments include a `trace_id`
pair emits a record that does carry a `trace_id` attribute. -/
theorem trace_id_attribute_counterexample :
    ((New LogWriter.stdout LevelInfo "SALES" none).Info 0 "m"
        [Attr.mk "trace_id" (Value.str "abc")] 5 none).any
      (fun e => match e with
        | Effect.emit _ out => out.any (fun a => a.key = "trace_id")
        | _ => false) = true := by decide

/-- C4 (amended): with a non-nil trace function every enabled call's
emitted record carries `trace_id` equal to the function's value for the
context; with a nil trace function the pipeline adds no `trace_id`, so the
emitted record carries none unless the caller passed one in the call's
arguments. -/
theorem trace_id_attribute (w : LogWriter) (min : Level) (svc : String)
    (ev : Events) (ctx : Ctx) (l : Level) (c : Nat) (msg : String)
    (args : List Attr) (now : Nat) (src : Option (String × Nat)) :
    (∀ f : Ctx → String, min ≤ l →
      ∀ wr out, Effect.emit wr out ∈
          (newLogger w min svc (some f) ev).write ctx l c msg args now src →
        Attr.mk "trace_id" (Value.str (f ctx)) ∈ out) ∧
    (args.any (fun a => a.key = "trace_id") = false →
      ∀ wr out, Effect.emit wr out ∈
          (newLogger w min svc none ev).write ctx l c msg args now src →
        out.any (fun a => a.key = "trace_id") = false) := by
  constructor
  · intro f hmin wr out hm
    rw [emit_mem_write_some w min svc f ev ctx l c msg args now src wr out
      hmin] at hm
    obtain ⟨hw, hout⟩ := hm
    subst hout
    have hmem :=
      mem_jsonOutput_of_mem_attrs [Attr.mk "service" (Value.str svc)] []
        { time := now, level := l, message := msg, source := src,
          attrs := args ++ [Attr.mk "trace_id" (Value.str (f ctx))] }
        (Attr.mk "trace_id" (Value.str (f ctx)))
        (List.mem_append_right _ (List.mem_singleton.mpr rfl))
        (by simp [sourceKey])
    simpa [qualifyAttr_nil] using hmem
  · intro hargs wr out hm
    by_cases hmin : min ≤ l
    · rw [emit_mem_write_none w min svc ev ctx l c msg args now src wr out
        hmin] at hm
      obtain ⟨hw, hout⟩ := hm
      subst hout
      rw [jsonOutput_any_key _ _ _ (by decide) (by decide) (by decide)
        (by decide) (by decide)]
      simp [hargs]
    · rw [newLogger_write_disabled w min svc none ev ctx l c msg args now src
        (not_le.mp hmin)] at hm
      simp at hm

/-- Witness for C4 (amended): with trace function `fun _ => "t0"` the
emitted record carries `trace_id = "t0"`. -/
theorem trace_id_attribute_witness :
    Attr.mk "trace_id" (Value.str "t0") ∈
      jsonOutput [Attr.mk "service" (Value.str "S")] []
        { time := 1, level := 0, message := "m", source := none,
          attrs := [Attr.mk "trace_id" (Value.str "t0")] } :=
  (trace_id_attribute LogWriter.stdout 0 "S" ⟨none, none, none, none⟩ 0 0 3
    "m" [] 1 none).1 (fun _ => "t0") (by decide) LogWriter.stdout
    (jsonOutput [Attr.mk "service" (Value.str "S")] []
      { time := 1, level := 0, message := "m", source := none,
        attrs := [Attr.mk "trace_id" (Value.str "t0")] })
    (by decide)

lemma emit_out_props (w : LogWriter) (min : Level) (svc : String)
    (fn : Option (Ctx → String)) (ev : Events) (ctx : Ctx) (l : Level)
    (c : Nat) (msg : String) (args : List Attr) (now : Nat)
    (src : Option (String × Nat)) (wr : LogWriter) (out : List Attr)
    (hm : Effect.emit wr out ∈
      (newLogger w min svc fn ev).write ctx l c msg args now src) :
    Attr.mk "service" (Value.str svc) ∈ out ∧
    (∀ p n, src = some (p, n) →
      Attr.mk "file" (Value.str (filepathBase p ++ ":" ++ toString n)) ∈ out) ∧
    (args.any (fun a => a.key = sourceKey) = false →
      out.any (fun a => a.key = sourceKey) = false) := by
  by_cases hmin : min ≤ l
  · cases fn with
    | none =>
      rw [emit_mem_write_none w min svc ev ctx l c msg args now src wr out
        hmin] at hm
      obtain ⟨hw, hout⟩ := hm
      subst hout
      refine ⟨service_mem_jsonOutput svc [] _, ?_, ?_⟩
      · intro p n hsrc
        exact file_mem_jsonOutput _ _ p n hsrc
      · intro hargs
        exact jsonOutput_no_sourceKey _ _ (by simp [sourceKey]) hargs
    | some f =>
      rw [emit_mem_write_some w min svc f ev ctx l c msg args now src wr out
        hmin] at hm
      obtain ⟨hw, hout⟩ := hm
      subst hout
      refine ⟨service_mem_jsonOutput svc [] _, ?_, ?_⟩
      · intro p n hsrc
        exact file_mem_jsonOutput _ _ p n hsrc
      · intro hargs
        refine jsonOutput_no_sourceKey _ _ (by simp [sourceKey]) ?_
        simp only [List.any_append, hargs, List.any_cons, List.any_nil]
        simp [sourceKey]
  · rw [newLogger_write_disabled w min svc fn ev ctx l c msg args now src
      (not_le.mp hmin)] at hm
    simp at hm

/-- C5: every record emitted through `New` or `NewWithEvents` carries the
constant `service` attribute set to the construction-time service name, and
the caller location is emitted under key `file` as `basename:line` (the raw
`source` attribute never reaches the output when the caller passes no
`source`-keyed argument). -/
theorem service_tag_and_file_format (w : LogWriter) (min : Level)
    (svc : String) (fn : Option (Ctx → String)) (ev : Events) (ctx : Ctx)
    (l : Level) (c : Nat) (msg : String) (args : List Attr) (now : Nat)
    (src : Option (String × Nat)) :
    (∀ wr out, Effect.emit wr out ∈
        (New w min svc fn).write ctx l c msg args now src →
      Attr.mk "service" (Value.str svc) ∈ out ∧
      (∀ p n, src = some (p, n) →
        Attr.mk "file" (Value.str (filepathBase p ++ ":" ++ toString n)) ∈ out) ∧
      (args.any (fun a => a.key = sourceKey) = false →
        out.any (fun a => a.key = sourceKey) = false)) ∧
    (∀ wr out, Effect.emit wr out ∈
        (NewWithEvents w min svc fn ev).write ctx l c msg args now src →
      Attr.mk "service" (Value.str svc) ∈ out ∧
      (∀ p n, src = some (p, n) →
        Attr.mk "file" (Value.str (filepathBase p ++ ":" ++ toString n)) ∈ out) ∧
      (args.any (fun a => a.key = sourceKey) = false →
        out.any (fun a => a.key = sourceKey) = false)) :=
  ⟨fun wr out hm =>
    emit_out_props w min svc fn ⟨none, none, none, none⟩ ctx l c msg args now
      src wr out hm,
   fun wr out hm =>
    emit_out_props w min svc fn ev ctx l c msg args now src wr out hm⟩

/-- Witness for C5: a concrete Info call through `New` emits the service
tag. -/
theorem service_tag_and_file_format_witness :
    Attr.mk "service" (Value.str "SALES") ∈
      jsonOutput [Attr.mk "service" (Value.str "SALES")] []
        { time := 7, level := 0, message := "m",
          source := some ("/a/b.go", 12), attrs := [] } :=
  ((service_tag_and_file_format LogWriter.stdout 0 "SALES" none
      ⟨none, none, none, none⟩ 0 0 3 "m" [] 7 (some ("/a/b.go", 12))).1
    LogWriter.stdout
    (jsonOutput [Attr.mk "service" (Value.str "SALES")] []
      { time := 7, level := 0, message := "m",
        source := some ("/a/b.go", 12), attrs := [] })
    (by decide)).1
